import Mathlib

/-!
Verification of the hx711-multi driver (`src/hx711_multi/hx711.py`,
`src/hx711_multi/utils.py`) against its natural-language specification.

The Python code is shallowly embedded: pure functions become Lean
functions, the stateful acquisition protocol becomes explicit state
passing over a `ChanSt`/`ADCState` record, hardware I/O (GPIO reads,
pulse timing) is abstracted into an environment of boolean-valued
functions, and Python float arithmetic is modelled exactly over `ℚ`.
Comparisons against a standard deviation `sqrt v` are rendered as the
equivalent comparisons of squares (both sides are nonnegative
throughout), so everything stays inside `ℚ`.
-/

namespace HXSpec

/-! ## SignalCodec: `ADC.convert_to_signed_value` (hx711.py lines 514-528) -/

/-- Embedding of `ADC.convert_to_signed_value`: the three sentinel frames
decode to `none`; otherwise, if bit 23 is set the result is
`-((raw XOR 0xFFFFFF) + 1)`, else `raw` itself. -/
def convert_to_signed_value (raw_value : ℕ) : Option ℤ :=
  if raw_value = 0x800000 ∨ raw_value = 0x7FFFFF ∨ raw_value = 0xFFFFFF then
    none
  else if raw_value &&& 0x800000 ≠ 0 then
    some (-(((raw_value ^^^ 0xFFFFFF : ℕ) : ℤ) + 1))
  else
    some (raw_value : ℤ)

/-- XOR with an all-ones mask is complement: for `a < 2^n`,
`a ^^^ (2^n - 1) = 2^n - 1 - a`. -/
theorem xor_all_ones (n : ℕ) : ∀ a : ℕ, a < 2 ^ n → a ^^^ (2 ^ n - 1) = 2 ^ n - 1 - a := by
  induction n with
  | zero => intro a ha; interval_cases a; rfl
  | succ n ih =>
    intro a ha
    have hbit : Nat.bit (decide (a % 2 = 1)) (a >>> 1) = a :=
      Nat.bit_decide_mod_two_eq_one_shiftRight_one a
    have hmask : (2 ^ (n + 1) - 1 : ℕ) = Nat.bit true (2 ^ n - 1) := by
      have h1 : (1 : ℕ) ≤ 2 ^ n := Nat.one_le_two_pow
      simp only [Nat.bit, cond]
      omega
    have hdiv : a >>> 1 = a / 2 := Nat.shiftRight_one a
    have hlt : a / 2 < 2 ^ n := by
      have := Nat.pow_succ 2 n
      omega
    calc a ^^^ (2 ^ (n + 1) - 1)
        = Nat.bit (decide (a % 2 = 1)) (a >>> 1) ^^^ Nat.bit true (2 ^ n - 1) := by
          rw [hbit, hmask]
      _ = Nat.bit (decide (a % 2 = 1) != true) ((a >>> 1) ^^^ (2 ^ n - 1)) :=
          Nat.xor_bit _ _ _ _
      _ = Nat.bit (decide (a % 2 = 1) != true) (2 ^ n - 1 - a / 2) := by
          rw [hdiv, ih (a / 2) hlt]
      _ = 2 ^ (n + 1) - 1 - a := by
          have h1 : (1 : ℕ) ≤ 2 ^ n := Nat.one_le_two_pow
          have hmod : a % 2 = 0 ∨ a % 2 = 1 := Nat.mod_two_eq_zero_or_one a
          have hdm := Nat.div_add_mod a 2
          have hpow : 2 ^ (n + 1) = 2 * 2 ^ n := by
            rw [Nat.pow_succ, Nat.mul_comm]
          rcases hmod with h | h <;>
            simp only [h, Nat.bit, cond, decide_eq_true_eq] <;>
            norm_num <;> omega

/-- The sign-bit test of the source, `raw &&& 0x800000 != 0`, is
equivalent to `2^23 ≤ raw` for 24-bit inputs. -/
theorem sign_bit_test (raw : ℕ) (h : raw < 2 ^ 24) :
    raw &&& 0x800000 ≠ 0 ↔ 2 ^ 23 ≤ raw := by
  have h23 : (0x800000 : ℕ) = 2 ^ 23 := by norm_num
  rw [h23, Nat.and_two_pow]
  have htb : raw.testBit 23 = decide (raw / 2 ^ 23 % 2 = 1) := Nat.testBit_to_div_mod
  constructor
  · intro hne
    by_contra hlt
    push_neg at hlt
    have : raw / 2 ^ 23 = 0 := Nat.div_eq_of_lt hlt
    rw [htb, this] at hne
    simp at hne
  · intro hle
    have hd : raw / 2 ^ 23 = 1 := by
      have h2 : (2 : ℕ) ^ 24 = 2 ^ 23 * 2 := by norm_num
      have := Nat.div_lt_of_lt_mul (by omega : raw < 2 ^ 23 * 2)
      have := Nat.one_le_div_iff (by positivity : 0 < (2:ℕ) ^ 23) |>.mpr hle
      omega
    rw [htb, hd]
    simp

/-- Closed arithmetic form of the decoder on non-sentinel 24-bit inputs:
it is exactly two's-complement interpretation. -/
theorem convert_to_signed_value_closed (raw : ℕ) (h : raw < 2 ^ 24)
    (hs : ¬(raw = 0x800000 ∨ raw = 0x7FFFFF ∨ raw = 0xFFFFFF)) :
    convert_to_signed_value raw =
      some (if 2 ^ 23 ≤ raw then (raw : ℤ) - 2 ^ 24 else (raw : ℤ)) := by
  unfold convert_to_signed_value
  rw [if_neg hs]
  by_cases hsign : 2 ^ 23 ≤ raw
  · rw [if_pos ((sign_bit_test raw h).mpr hsign), if_pos hsign]
    have hx : raw ^^^ 0xFFFFFF = 2 ^ 24 - 1 - raw := by
      have := xor_all_ones 24 raw h
      norm_num at this ⊢
      exact this
    rw [hx]
    have hcast : ((2 ^ 24 - 1 - raw : ℕ) : ℤ) = 2 ^ 24 - 1 - (raw : ℤ) := by
      have : raw ≤ 2 ^ 24 - 1 := by omega
      push_cast [Nat.sub_sub]
      omega
    rw [hcast]
    congr 1
    ring
  · rw [if_neg (by rw [sign_bit_test raw h]; exact hsign), if_neg hsign]

/-- A 24-bit raw frame that is not one of the three sentinel patterns. -/
def validRaw (raw : ℕ) : Prop :=
  raw < 2 ^ 24 ∧ raw ≠ 0x800000 ∧ raw ≠ 0x7FFFFF ∧ raw ≠ 0xFFFFFF

instance : DecidablePred validRaw := fun raw => by
  unfold validRaw; infer_instance

/-- The decoder's target set: `[-0x800000, 0x7FFFFF]` minus the boundary
values `{-0x800000, 0x7FFFFF, -1}` (the two's-complement readings of the
three sentinel bit patterns). -/
def decodedTarget (z : ℤ) : Prop :=
  -(2 ^ 23) ≤ z ∧ z ≤ 2 ^ 23 - 1 ∧ z ≠ -(2 ^ 23) ∧ z ≠ 2 ^ 23 - 1 ∧ z ≠ -1

instance : DecidablePred decodedTarget := fun z => by
  unfold decodedTarget; infer_instance

/-- C1. `convert_to_signed_value` sends the three sentinel inputs to the
invalid marker `none`, and on every other 24-bit input returns the raw
value when bit 23 is clear and `-((raw XOR 0xFFFFFF) + 1)` when bit 23 is
set; this mapping is injective on the valid inputs and onto
`[-0x800000, 0x7FFFFF]` minus the boundary values, consistent with two's
complement (`0x000001 → 1`, `0xFFFFFE → -2`, `0x400000 → 4194304`). -/
theorem C1_decode_bijection :
    (convert_to_signed_value 0x800000 = none ∧
     convert_to_signed_value 0x7FFFFF = none ∧
     convert_to_signed_value 0xFFFFFF = none) ∧
    (∀ raw, validRaw raw →
      (raw &&& 0x800000 = 0 → convert_to_signed_value raw = some (raw : ℤ)) ∧
      (raw &&& 0x800000 ≠ 0 →
        convert_to_signed_value raw = some (-(((raw ^^^ 0xFFFFFF : ℕ) : ℤ) + 1)))) ∧
    (∀ a b, validRaw a → validRaw b →
      convert_to_signed_value a = convert_to_signed_value b → a = b) ∧
    (∀ raw, validRaw raw → ∃ z, decodedTarget z ∧ convert_to_signed_value raw = some z) ∧
    (∀ z, decodedTarget z → ∃ raw, validRaw raw ∧ convert_to_signed_value raw = some z) ∧
    (convert_to_signed_value 0x000001 = some 1 ∧
     convert_to_signed_value 0xFFFFFE = some (-2) ∧
     convert_to_signed_value 0x400000 = some 4194304) := by
  have hsent : ∀ raw : ℕ, validRaw raw →
      ¬(raw = 0x800000 ∨ raw = 0x7FFFFF ∨ raw = 0xFFFFFF) := by
    rintro raw ⟨_, h1, h2, h3⟩ (h | h | h) <;> simp_all
  refine ⟨⟨by decide, by decide, by decide⟩, ?_, ?_, ?_, ?_, by decide, by decide, by decide⟩
  · intro raw hv
    unfold convert_to_signed_value
    rw [if_neg (hsent raw hv)]
    constructor
    · intro h0
      rw [if_neg (by simp [h0])]
    · intro h0
      rw [if_pos h0]
  · intro a b ha hb heq
    have ha1 := ha.1
    have hb1 := hb.1
    rw [convert_to_signed_value_closed a ha.1 (hsent a ha),
        convert_to_signed_value_closed b hb.1 (hsent b hb)] at heq
    simp only [Option.some_inj] at heq
    split_ifs at heq <;> omega
  · intro raw hv
    refine ⟨if 2 ^ 23 ≤ raw then (raw : ℤ) - 2 ^ 24 else (raw : ℤ), ?_,
      convert_to_signed_value_closed raw hv.1 (hsent raw hv)⟩
    obtain ⟨hlt, h1, h2, h3⟩ := hv
    unfold decodedTarget
    have e1 : (0x800000 : ℕ) = 2 ^ 23 := by norm_num
    have e2 : (0x7FFFFF : ℕ) = 2 ^ 23 - 1 := by norm_num
    have e3 : (0xFFFFFF : ℕ) = 2 ^ 24 - 1 := by norm_num
    by_cases hs : 2 ^ 23 ≤ raw <;> simp only [if_pos, if_neg, hs, if_true, if_false] <;>
      constructor <;> try constructor
    all_goals omega
  · intro z hz
    obtain ⟨hlo, hhi, hne1, hne2, hne3⟩ := hz
    refine ⟨if z < 0 then (z + 2 ^ 24).toNat else z.toNat, ?_, ?_⟩
    · unfold validRaw
      by_cases hneg : z < 0 <;> simp only [if_pos, if_neg, hneg, if_true, if_false] <;>
        refine ⟨by omega, by omega, by omega, by omega⟩
    · have hv : validRaw (if z < 0 then (z + 2 ^ 24).toNat else z.toNat) := by
        unfold validRaw
        by_cases hneg : z < 0 <;> simp only [if_pos, if_neg, hneg, if_true, if_false] <;>
          refine ⟨by omega, by omega, by omega, by omega⟩
      rw [convert_to_signed_value_closed _ hv.1 (hsent _ hv)]
      by_cases hneg : z < 0 <;> simp only [if_pos, if_neg, hneg, if_true, if_false]
      · rw [if_pos (by omega)]
        congr 1
        omega
      · rw [if_neg (by omega)]
        congr 1
        omega

/-- Witness for C1 at concrete inputs: surjectivity applied at `z = -2`
and injectivity applied at `a = b = 0x000001`. -/
theorem C1_decode_bijection_witness :
    (∃ raw, validRaw raw ∧ convert_to_signed_value raw = some (-2)) ∧
    (0x000001 : ℕ) = 0x000001 :=
  ⟨C1_decode_bijection.2.2.2.2.1 (-2) (by decide),
   C1_decode_bijection.2.2.1 0x000001 0x000001 (by decide) (by decide) rfl⟩

/-! ## Channel/gain configuration (hx711.py lines 95-115, 178-202) -/

/-- Embedding of the `_channel_A_gain` setter: accepts only 128 or 64,
anything else raises `TypeError` (modelled as `none`). -/
def check_channel_A_gain (g : ℤ) : Option ℤ :=
  if g = 128 ∨ g = 64 then some g else none

/-- Embedding of the `_channel_select` setter: accepts only `"A"` or
`"B"`, anything else raises `TypeError` (modelled as `none`). -/
def check_channel_select (s : String) : Option String :=
  if s = "A" ∨ s = "B" then some s else none

/-- `_write_channel_gain`'s pulse count: default 2 (channel B), 1 for
(A, 128), 3 for (A, 64). -/
def num_trailer_pulses (channel_select : String) (channel_A_gain : ℤ) : ℕ :=
  if channel_select = "A" ∧ channel_A_gain = 128 then 1
  else if channel_select = "A" ∧ channel_A_gain = 64 then 3
  else 2

/-- C2. The trailer pulse count is exactly 1 for (A, 128), 3 for (A, 64)
and 2 for channel B with either gain; gain or select values outside
{128, 64} / {A, B} are rejected by the constructor's setters. -/
theorem C2_trailer_pulses :
    num_trailer_pulses "A" 128 = 1 ∧
    num_trailer_pulses "A" 64 = 3 ∧
    (∀ g : ℤ, g = 128 ∨ g = 64 → num_trailer_pulses "B" g = 2) ∧
    (∀ g : ℤ, g = 128 ∨ g = 64 → check_channel_A_gain g = some g) ∧
    (∀ s : String, s = "A" ∨ s = "B" → check_channel_select s = some s) ∧
    (∀ g : ℤ, ¬(g = 128 ∨ g = 64) → check_channel_A_gain g = none) ∧
    (∀ s : String, ¬(s = "A" ∨ s = "B") → check_channel_select s = none) := by
  refine ⟨rfl, rfl, ?_, ?_, ?_, ?_, ?_⟩
  · rintro g (rfl | rfl) <;> rfl
  · intro g hg
    simp [check_channel_A_gain, hg]
  · intro s hs
    simp [check_channel_select, hs]
  · intro g hg
    simp [check_channel_A_gain, hg]
  · intro s hs
    simp [check_channel_select, hs]

/-- Witness for C2: channel B with gain 64 gives 2 trailer pulses, and
gain 100 / select "C" are rejected. -/
theorem C2_trailer_pulses_witness :
    num_trailer_pulses "B" 64 = 2 ∧
    check_channel_A_gain 100 = none ∧
    check_channel_select "C" = none :=
  ⟨C2_trailer_pulses.2.2.1 64 (Or.inr rfl),
   C2_trailer_pulses.2.2.2.2.2.1 100 (by decide),
   C2_trailer_pulses.2.2.2.2.2.2 "C" (by decide)⟩

/-! ## FilterEngine: `ADC._calculate_measurement` (hx711.py lines 530-586)

Python's `statistics.median`, `statistics.mean` and `statistics.stdev`
are modelled exactly over `ℚ`; the sample standard deviation
`stdev = sqrt(sampleVar)` is irrational, so every comparison the source
makes against it is rendered as the equivalent comparison of squares
(all quantities compared are nonnegative). -/

/-- Insertion of an element into a sorted list (helper for `sortQ`). -/
def insertSorted (x : ℚ) : List ℚ → List ℚ
  | [] => [x]
  | y :: ys => if x ≤ y then x :: y :: ys else y :: insertSorted x ys

/-- Insertion sort, modelling Python's `sorted`. -/
def sortQ : List ℚ → List ℚ
  | [] => []
  | x :: xs => insertSorted x (sortQ xs)

/-- `statistics.median`: middle element of the sorted data, or the
average of the two middle elements for even length. -/
def medianQ (l : List ℚ) : ℚ :=
  let s := sortQ l
  let n := s.length
  if n % 2 = 1 then s.getD (n / 2) 0
  else (s.getD (n / 2 - 1) 0 + s.getD (n / 2) 0) / 2

/-- `statistics.mean`. -/
def meanQ (l : List ℚ) : ℚ := l.sum / l.length

/-- The square of `statistics.stdev`: sample variance
`Σ (x - x̄)² / (n - 1)`. -/
def sampleVar (l : List ℚ) : ℚ :=
  (l.map (fun x => (x - meanQ l) ^ 2)).sum / ((l.length : ℚ) - 1)

/-- `ADC._max_stdev` (100). -/
def max_stdev : ℚ := 100

/-- `ADC._max_number_of_stdev_from_med` (2.0). -/
def max_number_of_stdev_from_med : ℚ := 2

/-- `_devs_from_med`: absolute deviations of the valid reads from their
median. -/
def devs_from_med (rf : List ℤ) : List ℚ :=
  rf.map fun r => |(r : ℚ) - medianQ (rf.map fun r => (r : ℚ))|

/-- The mutable per-channel state the reduction reads and writes
(`ADC` attributes; `reads` is the decoded-read list of this batch). -/
structure ADCState where
  zero_offset : ℚ := 0
  weight_multiple : ℚ := 1
  ready : Bool := false
  reads : List (Option ℤ) := []
  measurement : Option ℚ := none
  measurement_from_zero : Option ℚ := none
  weight : Option ℚ := none
  deriving Repr, DecidableEq

/-- Tail of `_calculate_measurement` after the stdev branch: zip the
filtered reads with `_ratios_to_stdev`, keep entries whose ratio
`dev / stdev` is at most 2 (rendered as `dev² ≤ 2² · var`), then take
the mean; only this path writes `measurement_from_zero` and `weight`. -/
def finish_mean (s : ADCState) (rf : List ℤ) (devs_for_zip : List ℚ) (varT : ℚ) :
    Bool × ADCState :=
  let kept := ((rf.zip devs_for_zip).filter fun p =>
    p.2 ^ 2 ≤ max_number_of_stdev_from_med ^ 2 * varT).map Prod.fst
  if kept.length = 0 then (false, s)
  else
    let m := meanQ (kept.map fun r => (r : ℚ))
    (true, { s with measurement := some m,
                    measurement_from_zero := some (m - s.zero_offset),
                    weight := some ((m - s.zero_offset) / s.weight_multiple) })

/-- Embedding of `ADC._calculate_measurement`. The `stdev > 100` branch
does not return: it demotes `_ready` and falls through to the zip with
the still-empty `_ratios_to_stdev`, so it always fails; the
`stdev == 0` branch returns the median directly. -/
def calculate_measurement (s : ADCState) : Bool × ADCState :=
  let rf := s.reads.filterMap id
  if rf.length = 0 then (false, s)
  else if rf.length = 1 then (true, { s with measurement := some ((rf.headD 0 : ℤ) : ℚ) })
  else
    let varT := sampleVar (devs_from_med rf)
    if max_stdev ^ 2 < varT then
      finish_mean { s with ready := false } rf [] varT
    else if varT ≠ 0 then
      finish_mean s rf (devs_from_med rf) varT
    else
      (true, { s with measurement := some (medianQ (rf.map fun r => (r : ℚ))) })

/-- C3 (counterexample). The claim says the reduction of
`[10, 11, 9, 10, 1000]` excludes the outlier and returns 10; in the code
the sample standard deviation of the deviations from the median
(≈ 442.5) exceeds `_max_stdev = 100`, so the reduction fails and yields
no measurement at all. -/
theorem C3_counterexample :
    (calculate_measurement { reads := [some 10, some 11, some 9, some 10, some 1000] }).1
      = false ∧
    (calculate_measurement { reads := [some 10, some 11, some 9, some 10, some 1000] }).2.measurement
      = none := by
  norm_num [calculate_measurement, devs_from_med, medianQ, sortQ, insertSorted, meanQ,
    sampleVar, finish_mean, max_stdev, max_number_of_stdev_from_med, List.filterMap]

/-- C3 (amended). On `[10, 11, 9, 10, 1000]` the reduction fails (stdev
ceiling exceeded) and demotes the channel; the outlier exclusion the
claim describes does occur for a milder outlier, e.g.
`[10, 11, 9, 10, 100]` reduces to 10 with the 100 excluded; the empty
and all-invalid inputs fail; a single valid value `v` is returned
exactly. -/
theorem C3_amended :
    ((calculate_measurement { reads := [some 10, some 11, some 9, some 10, some 1000] }).1
       = false ∧
     (calculate_measurement { reads := [some 10, some 11, some 9, some 10, some 1000] }).2.ready
       = false) ∧
    ((calculate_measurement { reads := [some 10, some 11, some 9, some 10, some 100] }).1
       = true ∧
     (calculate_measurement { reads := [some 10, some 11, some 9, some 10, some 100] }).2.measurement
       = some 10) ∧
    (calculate_measurement { reads := ([] : List (Option ℤ)) }).1 = false ∧
    (∀ l : List (Option ℤ), (∀ x ∈ l, x = none) →
      (calculate_measurement { reads := l }).1 = false) ∧
    (∀ v : ℤ, (calculate_measurement { reads := [some v] }).1 = true ∧
      (calculate_measurement { reads := [some v] }).2.measurement = some (v : ℚ)) := by
  refine ⟨?_, ?_, ?_, ?_, ?_⟩
  · norm_num [calculate_measurement, devs_from_med, medianQ, sortQ, insertSorted, meanQ,
      sampleVar, finish_mean, max_stdev, max_number_of_stdev_from_med, List.filterMap]
  · norm_num [calculate_measurement, devs_from_med, medianQ, sortQ, insertSorted, meanQ,
      sampleVar, finish_mean, max_stdev, max_number_of_stdev_from_med, List.filterMap]
  · norm_num [calculate_measurement, List.filterMap]
  · intro l hl
    have h0 : l.filterMap id = [] := by
      rw [List.filterMap_eq_nil_iff]
      intro a ha
      exact hl a ha
    simp [calculate_measurement, h0]
  · intro v
    simp [calculate_measurement, List.filterMap]

/-- Witness for C3's amended universally-quantified parts, at `l = [none]`
and `v = 7`. -/
theorem C3_amended_witness :
    (calculate_measurement { reads := [(none : Option ℤ)] }).1 = false ∧
    (calculate_measurement { reads := [some 7] }).2.measurement = some 7 :=
  ⟨C3_amended.2.2.2.1 [none] (by simp),
   (C3_amended.2.2.2.2 7).2⟩

/-- C7. If the filtered reads hold at least two values and the sample
standard deviation of the deviations from the median exceeds the
`_max_stdev = 100` ceiling (stated on squares: `sampleVar > 100²`), the
reduction demotes the channel to not-ready and fails. -/
theorem C7_noisy_channel_demotion (s : ADCState)
    (h2 : 2 ≤ (s.reads.filterMap id).length)
    (hvar : max_stdev ^ 2 < sampleVar (devs_from_med (s.reads.filterMap id))) :
    (calculate_measurement s).1 = false ∧ (calculate_measurement s).2.ready = false ∧
    (calculate_measurement s).2.measurement = s.measurement := by
  have h0 : ¬(s.reads.filterMap id).length = 0 := by omega
  have h1 : ¬(s.reads.filterMap id).length = 1 := by omega
  simp only [calculate_measurement]
  rw [if_neg h0, if_neg h1, if_pos hvar]
  simp [finish_mean]

/-- Witness for C7 at the concrete batch `[10, 11, 9, 10, 1000]`
(variance of deviations 195822.3 > 10000). -/
theorem C7_noisy_channel_demotion_witness :
    (calculate_measurement { reads := [some 10, some 11, some 9, some 10, some 1000] }).1
      = false ∧
    (calculate_measurement { reads := [some 10, some 11, some 9, some 10, some 1000] }).2.ready
      = false ∧
    (calculate_measurement { reads := [some 10, some 11, some 9, some 10, some 1000] }).2.measurement
      = ({ reads := [some 10, some 11, some 9, some 10, some 1000] } : ADCState).measurement :=
  C7_noisy_channel_demotion { reads := [some 10, some 11, some 9, some 10, some 1000] }
    (by norm_num [List.filterMap])
    (by norm_num [devs_from_med, medianQ, sortQ, insertSorted, meanQ, sampleVar,
        max_stdev, List.filterMap])

/-- C8 (counterexample). The claim says every success path computes
`measurement_from_zero` and `weight`; the single-remaining-value path
succeeds with `measurement = 5` and the zero-stdev path with
`measurement = 4` (the median), yet both leave the two fields unset
(`none`), even with a nonzero `zero_offset`. -/
theorem C8_counterexample :
    ((calculate_measurement { zero_offset := 3, reads := [some 5] }).1 = true ∧
     (calculate_measurement { zero_offset := 3, reads := [some 5] }).2.measurement = some 5 ∧
     (calculate_measurement { zero_offset := 3, reads := [some 5] }).2.measurement_from_zero
       = none ∧
     (calculate_measurement { zero_offset := 3, reads := [some 5] }).2.weight = none) ∧
    ((calculate_measurement { zero_offset := 3, reads := [some 4, some 4, some 4] }).1
       = true ∧
     (calculate_measurement { zero_offset := 3, reads := [some 4, some 4, some 4] }).2.measurement
       = some 4 ∧
     (calculate_measurement { zero_offset := 3, reads := [some 4, some 4, some 4] }).2.measurement_from_zero
       = none ∧
     (calculate_measurement { zero_offset := 3, reads := [some 4, some 4, some 4] }).2.weight
       = none) := by
  constructor
  · norm_num [calculate_measurement, List.filterMap]
  · norm_num [calculate_measurement, devs_from_med, medianQ, sortQ, insertSorted, meanQ,
      sampleVar, finish_mean, max_stdev, max_number_of_stdev_from_med, List.filterMap]

/-- C8 (amended). Only the post-outlier-filter mean path writes
`measurement_from_zero` and `weight`. Path by path: a single valid read
succeeds setting only `measurement` (to that read) and leaves
`measurement_from_zero` and `weight` unchanged; at least two valid reads
with zero sample variance of the deviations succeed setting only
`measurement` (to the median) and leave both fields unchanged; and every
other success is the mean path, which writes
`measurement_from_zero = measurement - zero_offset` and
`weight = measurement_from_zero / weight_multiple`. -/
theorem C8_amended_success_paths :
    (∀ s : ADCState, (s.reads.filterMap id).length = 1 →
      (calculate_measurement s).1 = true ∧
      (calculate_measurement s).2.measurement
        = some (((s.reads.filterMap id).headD 0 : ℤ) : ℚ) ∧
      (calculate_measurement s).2.measurement_from_zero = s.measurement_from_zero ∧
      (calculate_measurement s).2.weight = s.weight) ∧
    (∀ s : ADCState, 2 ≤ (s.reads.filterMap id).length →
      sampleVar (devs_from_med (s.reads.filterMap id)) = 0 →
      (calculate_measurement s).1 = true ∧
      (calculate_measurement s).2.measurement
        = some (medianQ ((s.reads.filterMap id).map fun r => (r : ℚ))) ∧
      (calculate_measurement s).2.measurement_from_zero = s.measurement_from_zero ∧
      (calculate_measurement s).2.weight = s.weight) ∧
    (∀ s : ADCState, (calculate_measurement s).1 = true →
      2 ≤ (s.reads.filterMap id).length →
      sampleVar (devs_from_med (s.reads.filterMap id)) ≠ 0 →
      ∃ m, (calculate_measurement s).2.measurement = some m ∧
        (calculate_measurement s).2.measurement_from_zero = some (m - s.zero_offset) ∧
        (calculate_measurement s).2.weight = some ((m - s.zero_offset) / s.weight_multiple)) := by
  refine ⟨?_, ?_, ?_⟩
  · intro s h1
    simp only [calculate_measurement]
    rw [if_neg (by omega), if_pos h1]
    exact ⟨rfl, rfl, rfl, rfl⟩
  · intro s h2 hv0
    have h0 : ¬(s.reads.filterMap id).length = 0 := by omega
    have h1 : ¬(s.reads.filterMap id).length = 1 := by omega
    have hgt : ¬(max_stdev ^ 2 < sampleVar (devs_from_med (s.reads.filterMap id))) := by
      rw [hv0]
      norm_num [max_stdev]
    simp only [calculate_measurement]
    rw [if_neg h0, if_neg h1, if_neg hgt, if_neg (not_not.mpr hv0)]
    exact ⟨rfl, rfl, rfl, rfl⟩
  · intro s hsucc h2 hnz
    have h0 : ¬(s.reads.filterMap id).length = 0 := by omega
    have h1 : ¬(s.reads.filterMap id).length = 1 := by omega
    simp only [calculate_measurement] at hsucc ⊢
    rw [if_neg h0, if_neg h1] at hsucc ⊢
    by_cases hgt : max_stdev ^ 2 < sampleVar (devs_from_med (s.reads.filterMap id))
    · rw [if_pos hgt] at hsucc
      simp [finish_mean] at hsucc
    · rw [if_neg hgt, if_pos hnz] at hsucc ⊢
      simp only [finish_mean] at hsucc ⊢
      split_ifs at hsucc ⊢ with hk
      exact ⟨_, rfl, rfl, rfl⟩

/-- Witness for C8's amended theorem: the single-value path at
`[5]` and the zero-stdev path at `[4, 4, 4]` leave
`measurement_from_zero` unchanged, and the mean path at
`[10, 11, 9, 10, 100]` writes both derived fields. -/
theorem C8_amended_success_paths_witness :
    (calculate_measurement { zero_offset := 3, reads := [some 5] }).2.measurement_from_zero
      = none ∧
    (calculate_measurement { zero_offset := 3, reads := [some 4, some 4, some 4] }).2.weight
      = none ∧
    (∃ m, (calculate_measurement
            { zero_offset := 3, reads := [some 10, some 11, some 9, some 10, some 100] }).2.measurement
          = some m ∧
      (calculate_measurement
            { zero_offset := 3, reads := [some 10, some 11, some 9, some 10, some 100] }).2.measurement_from_zero
          = some (m - 3) ∧
      (calculate_measurement
            { zero_offset := 3, reads := [some 10, some 11, some 9, some 10, some 100] }).2.weight
          = some ((m - 3) / 1)) :=
  ⟨(C8_amended_success_paths.1 { zero_offset := 3, reads := [some 5] }
      (by norm_num [List.filterMap])).2.2.1,
   (C8_amended_success_paths.2.1 { zero_offset := 3, reads := [some 4, some 4, some 4] }
      (by norm_num [List.filterMap])
      (by norm_num [devs_from_med, medianQ, sortQ, insertSorted, meanQ, sampleVar,
          List.filterMap])).2.2.2,
   C8_amended_success_paths.2.2
      { zero_offset := 3, reads := [some 10, some 11, some 9, some 10, some 100] }
      (by norm_num [calculate_measurement, devs_from_med, medianQ, sortQ, insertSorted,
          meanQ, sampleVar, finish_mean, max_stdev, max_number_of_stdev_from_med,
          List.filterMap])
      (by norm_num [List.filterMap])
      (by norm_num [devs_from_med, medianQ, sortQ, insertSorted, meanQ, sampleVar,
          List.filterMap])⟩

/-! ## Construction: `HX711.__init__` (hx711.py lines 39-62) and
`convert_to_list` (utils.py lines 7-29) -/

/-- The dynamic argument passed as `dout_pins`: a single int, a list all
of whose elements are ints, a list containing a non-int, or a value of
any other type. -/
inductive DoutArg
  | int (n : ℤ)
  | intList (l : List ℤ)
  | listWithNonInt
  | other
  deriving Repr, DecidableEq

/-- `convert_to_list(dout_pins, _type=int, _default_output=None)`: a list
whose elements are all ints passes through unchanged — including the
empty list, since `all([])` is true — a single int is wrapped in a
one-element list, and anything else yields the default `None`. -/
def convert_to_list_int : DoutArg → Option (List ℤ)
  | .int n => some [n]
  | .intList l => some l
  | .listWithNonInt => none
  | .other => none

/-- Observable outcome of a construction attempt: whether it succeeded,
and which GPIO lines had been configured by `_init_gpio` when it
returned or raised (clock first, then each data line, in order). -/
structure InitOutcome where
  ok : Bool
  configured : List ℤ
  deriving Repr, DecidableEq

/-- Embedding of `HX711.__init__`'s validation sequence: the `_dout_pins`
setter raises `TypeError` when `convert_to_list` returns `None` (before
any GPIO call), then `_init_gpio` configures the clock and data lines,
and only then do the `_channel_A_gain` and `_channel_select` setters
run, raising after the I/O lines are already configured. There is no
emptiness or duplicate check anywhere on `dout_pins`. -/
def hx711_init (dout_pins : DoutArg) (sck_pin : ℤ) (channel_A_gain : ℤ)
    (channel_select : String) : InitOutcome :=
  match convert_to_list_int dout_pins with
  | none => { ok := false, configured := [] }
  | some pins =>
    let conf := sck_pin :: pins
    match check_channel_A_gain channel_A_gain with
    | none => { ok := false, configured := conf }
    | some _ =>
      match check_channel_select channel_select with
      | none => { ok := false, configured := conf }
      | some _ => { ok := true, configured := conf }

/-- C4 (counterexample). Construction with duplicate data pins
`[5, 5]` succeeds, construction with an empty pin list succeeds, and a
construction that fails on a bad gain (100) has already configured the
clock and data lines — all three contradict the claim. -/
theorem C4_counterexample :
    (hx711_init (.intList [5, 5]) 6 128 "A").ok = true ∧
    (hx711_init (.intList []) 6 128 "A").ok = true ∧
    (hx711_init (.int 5) 6 100 "A").ok = false ∧
    (hx711_init (.int 5) 6 100 "A").configured = [6, 5] := by
  decide

/-- C4 (amended). Construction fails exactly when `dout_pins` is not an
int or list of ints (raising before any I/O line is configured), or when
gain is outside {128, 64}, or select is outside {"A", "B"} — the latter
two raising only after the clock and all data lines were configured.
Empty pin lists and duplicate pins are accepted. -/
theorem C4_amended :
    (∀ sck g sel, hx711_init .listWithNonInt sck g sel = { ok := false, configured := [] } ∧
      hx711_init .other sck g sel = { ok := false, configured := [] }) ∧
    (∀ pins sck g sel, (hx711_init (.intList pins) sck g sel).ok = true ↔
      ((g = 128 ∨ g = 64) ∧ (sel = "A" ∨ sel = "B"))) ∧
    (∀ pins sck g sel, (hx711_init (.intList pins) sck g sel).configured = sck :: pins) ∧
    (∀ n sck g sel, (hx711_init (.int n) sck g sel).configured = [sck, n]) := by
  refine ⟨fun sck g sel => ⟨rfl, rfl⟩, ?_, ?_, ?_⟩
  · intro pins sck g sel
    simp only [hx711_init, convert_to_list_int, check_channel_A_gain, check_channel_select]
    split_ifs with hg hs <;> simp_all
  · intro pins sck g sel
    simp only [hx711_init, convert_to_list_int, check_channel_A_gain, check_channel_select]
    split_ifs <;> rfl
  · intro n sck g sel
    simp only [hx711_init, convert_to_list_int, check_channel_A_gain, check_channel_select]
    split_ifs <;> rfl

/-! ## AcquisitionEngine: `HX711._read` (hx711.py lines 204-244) with
`_prepare_to_read` (129-155), `_pulse_sck_high` (157-176),
`_write_channel_gain` (178-202)

Hardware I/O is abstracted into an environment: what each data line
reads during each poll iteration and each data pulse, and whether each
clock pulse of the frame stayed under the 60 µs power-down threshold. -/

/-- The hardware environment of one frame read. -/
structure ReadEnv where
  /-- `lineLow t c`: channel `c`'s dout line reads LOW (ready) at
  readiness-poll iteration `t` (`GPIO.input == 0` in `_is_ready`). -/
  lineLow : ℕ → ℕ → Bool
  /-- `pulseOk k`: the `k`-th clock pulse of this frame completed in
  under 60 µs (`_pulse_sck_high` returned True). -/
  pulseOk : ℕ → Bool
  /-- `bit k c`: channel `c`'s data line during data pulse `k`. -/
  bit : ℕ → ℕ → Bool

/-- Per-channel mutable state touched by a frame read (`ADC` attributes
`_ready`, `_current_raw_read`, `raw_reads`, `reads`). -/
structure ChanSt where
  ready : Bool := false
  current_raw_read : ℕ := 0
  raw_reads : List ℕ := []
  reads : List (Option ℤ) := []
  deriving Repr, DecidableEq

/-- `ADC._init_raw_read` applied to every ADC at frame start. -/
def init_raw_read (chans : List ChanSt) : List ChanSt :=
  chans.map fun st => { st with ready := false, current_raw_read := 0 }

/-- One iteration of the readiness poll: every not-yet-ready channel
latches `ready` from its data line (`ADC._is_ready`); `c` is the index
of the first channel in the suffix. -/
def mark_ready (env : ReadEnv) (t : ℕ) : ℕ → List ChanSt → List ChanSt
  | _, [] => []
  | c, st :: rest =>
    (if st.ready then st else { st with ready := env.lineLow t c }) ::
      mark_ready env t (c + 1) rest

/-- The bounded poll of `_prepare_to_read`: up to 20 iterations
(`fuel` counts the remaining ones), stopping early once every channel is
ready. The 10 ms sleeps carry no state. -/
def poll_loop (env : ReadEnv) : ℕ → List ChanSt → List ChanSt
  | 0, chans => chans
  | fuel + 1, chans =>
    let chans' := mark_ready env (20 - (fuel + 1)) 0 chans
    if chans'.all (·.ready) then chans' else poll_loop env fuel chans'

/-- `ADC._shift_and_read` applied to every ready channel during data
pulse `k`: shift the accumulator left and OR in the data-line bit. -/
def shift_chans (env : ReadEnv) (k : ℕ) : ℕ → List ChanSt → List ChanSt
  | _, [] => []
  | c, st :: rest =>
    (if st.ready then
      { st with current_raw_read :=
          2 * st.current_raw_read + (if env.bit k c then 1 else 0) }
     else st) :: shift_chans env k (c + 1) rest

/-- The 24-bit phase of `_read`: for each pulse index in `ks`, pulse the
clock — returning immediately with failure if the pulse overran — then
shift a bit into every ready channel. Returns
(success, channel states, pulses emitted). -/
def data_phase (env : ReadEnv) : List ℕ → List ChanSt → Bool × List ChanSt × ℕ
  | [], chans => (true, chans, 0)
  | k :: ks, chans =>
    if env.pulseOk k then
      let r := data_phase env ks (shift_chans env k 0 chans)
      (r.1, r.2.1, r.2.2 + 1)
    else (false, chans, 1)

/-- `ADC._finish_raw_read` for every ready channel: append the
accumulator to `raw_reads` and its signed decode to `reads`. -/
def finish_chans (chans : List ChanSt) : List ChanSt :=
  chans.map fun st =>
    if st.ready then
      { st with raw_reads := st.raw_reads ++ [st.current_raw_read],
                reads := st.reads ++ [convert_to_signed_value st.current_raw_read] }
    else st

/-- `_write_channel_gain`'s pulse loop: `n` trailer pulses starting at
pulse index `k0`, returning on the first overrun. Returns
(success, pulses emitted). -/
def trailer_phase (env : ReadEnv) (k0 : ℕ) : ℕ → Bool × ℕ
  | 0 => (true, 0)
  | n + 1 =>
    if env.pulseOk k0 then
      let r := trailer_phase env (k0 + 1) n
      (r.1, r.2 + 1)
    else (false, 1)

/-- Observable result of one frame read. -/
structure ReadResult where
  ok : Bool
  chans : List ChanSt
  dataPulses : ℕ
  trailerPulses : ℕ

/-- Embedding of `HX711._read`: reset accumulators, poll readiness,
abort before any clock pulse if not all channels are ready under
all-or-nothing, clock out 24 bits across the ready channels — returning
immediately on a pulse overrun — finish the ready channels, then emit
the gain/channel trailer pulses. -/
def hx_read (env : ReadEnv) (all_or_nothing : Bool) (numTrailer : ℕ)
    (chans0 : List ChanSt) : ReadResult :=
  let chans1 := init_raw_read chans0
  let chans2 := poll_loop env 20 chans1
  if ¬(chans2.all (·.ready)) ∧ all_or_nothing then
    { ok := false, chans := chans2, dataPulses := 0, trailerPulses := 0 }
  else
    let d := data_phase env (List.range 24) chans2
    if ¬d.1 then
      { ok := false, chans := d.2.1, dataPulses := d.2.2, trailerPulses := 0 }
    else
      let t := trailer_phase env 24 numTrailer
      { ok := t.1, chans := finish_chans d.2.1, dataPulses := d.2.2,
        trailerPulses := t.2 }

/-- C5 (counterexample). The claim says the trailer pulses run in every
frame read that enters the data-bit phase; with all channels ready but
the 6th data pulse overrunning the 60 µs budget, `_read` returns from
inside the bit loop: 6 data pulses were emitted (the phase was entered)
yet zero trailer pulses follow. -/
theorem C5_counterexample :
    (hx_read
      { lineLow := fun _ _ => true, pulseOk := fun k => k != 5, bit := fun _ _ => false }
      true 1 [{}, {}]).dataPulses = 6 ∧
    (hx_read
      { lineLow := fun _ _ => true, pulseOk := fun k => k != 5, bit := fun _ _ => false }
      true 1 [{}, {}]).trailerPulses = 0 ∧
    (hx_read
      { lineLow := fun _ _ => true, pulseOk := fun k => k != 5, bit := fun _ _ => false }
      true 1 [{}, {}]).ok = false := by
  refine ⟨?_, ?_, ?_⟩ <;> rfl

/-- If every pulse in `ks` stays within budget, the data phase succeeds
and emits exactly `ks.length` pulses. -/
theorem data_phase_all_ok (env : ReadEnv) (ks : List ℕ) :
    ∀ chans, (∀ k ∈ ks, env.pulseOk k = true) →
      (data_phase env ks chans).1 = true ∧ (data_phase env ks chans).2.2 = ks.length := by
  induction ks with
  | nil => intro chans _; exact ⟨rfl, rfl⟩
  | cons k ks ih =>
    intro chans h
    have hk : env.pulseOk k = true := h k (by simp)
    have hr := ih (shift_chans env k 0 chans) (fun k' hk' => h k' (by simp [hk']))
    simp [data_phase, hk, hr.1, hr.2]

/-- A nonempty trailer phase always emits at least one pulse, even if
the first pulse overruns. -/
theorem trailer_phase_pos (env : ReadEnv) (k0 n : ℕ) (h : 1 ≤ n) :
    1 ≤ (trailer_phase env k0 n).2 := by
  cases n with
  | zero => omega
  | succ m =>
    cases hb : env.pulseOk k0 <;> simp [trailer_phase, hb]

/-- If every trailer pulse stays within budget, the trailer phase
succeeds and emits exactly `n` pulses. -/
theorem trailer_phase_all_ok (env : ReadEnv) :
    ∀ n k0, (∀ k, k0 ≤ k → k < k0 + n → env.pulseOk k = true) →
      (trailer_phase env k0 n).1 = true ∧ (trailer_phase env k0 n).2 = n := by
  intro n
  induction n with
  | zero => intro k0 _; exact ⟨rfl, rfl⟩
  | succ m ih =>
    intro k0 h
    have hk : env.pulseOk k0 = true := h k0 (Nat.le_refl k0) (by omega)
    have hr := ih (k0 + 1) (fun k hk1 hk2 => h k (by omega) (by omega))
    simp [trailer_phase, hk, hr.1, hr.2]

/-- C5 (amended). In every frame read in which the not-all-ready abort
was not taken and all 24 data-bit pulses stayed within the timing
budget, the trailer phase runs before the read returns (at least one
trailer pulse; exactly the configured count, with overall success, when
the trailer pulses also stay within budget) — including degraded
best-effort frames with unready channels. If a data-bit pulse overruns,
the read returns immediately and no trailer pulse is emitted
(C5_counterexample). -/
theorem C5_amended (env : ReadEnv) (aon : Bool) (numT : ℕ) (chans : List ChanSt)
    (habort : aon = true → (poll_loop env 20 (init_raw_read chans)).all (·.ready) = true)
    (hdata : ∀ k < 24, env.pulseOk k = true)
    (hn : 1 ≤ numT) :
    1 ≤ (hx_read env aon numT chans).trailerPulses ∧
    ((∀ k, 24 ≤ k → k < 24 + numT → env.pulseOk k = true) →
      (hx_read env aon numT chans).trailerPulses = numT ∧
      (hx_read env aon numT chans).ok = true) := by
  have hd := data_phase_all_ok env (List.range 24) (poll_loop env 20 (init_raw_read chans))
    (fun k hk => hdata k (List.mem_range.mp hk))
  simp only [hx_read]
  rw [if_neg (by rintro ⟨hna, ha⟩; exact hna (habort ha))]
  rw [if_neg (by simp [hd.1])]
  refine ⟨trailer_phase_pos env 24 numT hn, fun htr => ?_⟩
  have ht := trailer_phase_all_ok env numT 24 htr
  exact ⟨ht.2, ht.1⟩

/-- Witness for C5's amended theorem: all channels ready, all pulses in
budget, (A, 64) trailer count 3 — the frame emits exactly 3 trailer
pulses and succeeds. -/
theorem C5_amended_witness :
    (hx_read
      { lineLow := fun _ _ => true, pulseOk := fun _ => true, bit := fun _ _ => false }
      true 3 [{}]).trailerPulses = 3 ∧
    (hx_read
      { lineLow := fun _ _ => true, pulseOk := fun _ => true, bit := fun _ _ => false }
      true 3 [{}]).ok = true :=
  (C5_amended
    { lineLow := fun _ _ => true, pulseOk := fun _ => true, bit := fun _ _ => false }
    true 3 [{}] (fun _ => rfl) (fun _ _ => rfl) (by omega)).2
    (fun _ _ _ => rfl)

/-- The frame-visible observables of a channel: readiness flag plus the
accumulated read histories. -/
def chanObs (st : ChanSt) : Bool × List ℕ × List (Option ℤ) :=
  (st.ready, st.raw_reads, st.reads)

/-- Just the read histories of a channel. -/
def chanData (st : ChanSt) : List ℕ × List (Option ℤ) :=
  (st.raw_reads, st.reads)

theorem init_raw_read_data (l : List ChanSt) :
    (init_raw_read l).map chanData = l.map chanData := by
  induction l <;> simp_all [init_raw_read, chanData]

theorem mark_ready_data (env : ReadEnv) (t : ℕ) :
    ∀ c l, (mark_ready env t c l).map chanData = l.map chanData := by
  intro c l
  induction l generalizing c with
  | nil => rfl
  | cons st rest ih =>
    by_cases h : st.ready <;> simp [mark_ready, chanData, h, ih]

theorem poll_loop_data (env : ReadEnv) :
    ∀ fuel l, (poll_loop env fuel l).map chanData = l.map chanData := by
  intro fuel
  induction fuel with
  | zero => intro l; rfl
  | succ f ih =>
    intro l
    simp only [poll_loop]
    split_ifs
    · exact mark_ready_data env _ 0 l
    · rw [ih]
      exact mark_ready_data env _ 0 l

theorem shift_chans_obs (env : ReadEnv) (k : ℕ) :
    ∀ c l, (shift_chans env k c l).map chanObs = l.map chanObs := by
  intro c l
  induction l generalizing c with
  | nil => rfl
  | cons st rest ih =>
    by_cases h : st.ready <;> simp [shift_chans, chanObs, h, ih]

theorem data_phase_obs (env : ReadEnv) :
    ∀ ks l, ((data_phase env ks l).2.1).map chanObs = l.map chanObs := by
  intro ks
  induction ks with
  | nil => intro l; rfl
  | cons k ks ih =>
    intro l
    simp only [data_phase]
    split_ifs
    · rw [ih]
      exact shift_chans_obs env k 0 l
    · rfl

/-- What one completed frame does to one channel, relative to its state
after the readiness poll: ready channels append exactly one raw read and
its decode; unready channels keep their histories unchanged. -/
def frameDelta (st2 str : ChanSt) : Prop :=
  str.ready = st2.ready ∧
  (if st2.ready then
     str.raw_reads = st2.raw_reads ++ [str.current_raw_read] ∧
     str.reads = st2.reads ++ [convert_to_signed_value str.current_raw_read]
   else
     str.raw_reads = st2.raw_reads ∧ str.reads = st2.reads)

theorem finish_chans_delta (l : List ChanSt) :
    List.Forall₂ frameDelta l (finish_chans l) := by
  induction l with
  | nil => exact List.Forall₂.nil
  | cons st rest ih =>
    refine List.Forall₂.cons ?_ ih
    by_cases h : st.ready <;> simp [frameDelta, finish_chans, h]

theorem forall2_frameDelta_congr :
    ∀ (l l' m : List ChanSt), l.map chanObs = l'.map chanObs →
      List.Forall₂ frameDelta l m → List.Forall₂ frameDelta l' m := by
  intro l
  induction l with
  | nil =>
    intro l' m h hf
    cases hf
    cases l' with
    | nil => exact List.Forall₂.nil
    | cons => simp at h
  | cons a as ih =>
    intro l' m h hf
    cases hf with
    | cons hab hrest =>
      cases l' with
      | nil => simp at h
      | cons a' as' =>
        simp only [List.map_cons, List.cons.injEq] at h
        refine List.Forall₂.cons ?_ (ih as' _ h.2 hrest)
        have e : a.ready = a'.ready ∧ a.raw_reads = a'.raw_reads ∧ a.reads = a'.reads := by
          have := h.1
          simp only [chanObs, Prod.mk.injEq] at this
          exact this
        unfold frameDelta at hab ⊢
        rw [← e.1, ← e.2.1, ← e.2.2]
        exact hab

/-- C6. When not every channel becomes ready within the bounded poll:
under ALL_OR_NOTHING the frame returns failure with zero data and zero
trailer pulses and every channel's `raw_reads`/`reads` histories are
unchanged; under BEST_EFFORT (with all pulses in budget) the frame
succeeds and, relative to the post-poll states — whose histories equal
the input histories — each ready channel appends exactly one raw read
and its decode while each unready channel appends nothing. -/
theorem C6_readiness_policy (env : ReadEnv) (numT : ℕ) (chans : List ChanSt) :
    ((poll_loop env 20 (init_raw_read chans)).all (·.ready) = false →
      (hx_read env true numT chans).ok = false ∧
      (hx_read env true numT chans).dataPulses = 0 ∧
      (hx_read env true numT chans).trailerPulses = 0 ∧
      (hx_read env true numT chans).chans.map chanData = chans.map chanData) ∧
    ((∀ k, env.pulseOk k = true) →
      (hx_read env false numT chans).ok = true ∧
      List.Forall₂ frameDelta (poll_loop env 20 (init_raw_read chans))
        (hx_read env false numT chans).chans ∧
      (poll_loop env 20 (init_raw_read chans)).map chanData = chans.map chanData) := by
  constructor
  · intro hall
    simp only [hx_read]
    rw [if_pos ⟨by simp [hall], trivial⟩]
    refine ⟨rfl, rfl, rfl, ?_⟩
    rw [poll_loop_data, init_raw_read_data]
  · intro hp
    have hd := data_phase_all_ok env (List.range 24)
      (poll_loop env 20 (init_raw_read chans)) (fun k _ => hp k)
    have ht := trailer_phase_all_ok env numT 24 (fun k _ _ => hp k)
    simp only [hx_read]
    rw [if_neg (by rintro ⟨_, h⟩; cases h)]
    rw [if_neg (by simp [hd.1])]
    refine ⟨ht.1, ?_, ?_⟩
    · exact forall2_frameDelta_congr _ _ _ (data_phase_obs env (List.range 24) _)
        (finish_chans_delta _)
    · rw [poll_loop_data, init_raw_read_data]

/-- Witness for C6: with channel 1 of 2 never ready, all-or-nothing
fails with zero pulses, and best-effort (all pulses in budget)
succeeds. -/
theorem C6_readiness_policy_witness :
    ((hx_read
        { lineLow := fun _ c => c == 0, pulseOk := fun _ => true, bit := fun _ _ => false }
        true 1 [{}, {}]).ok = false ∧
     (hx_read
        { lineLow := fun _ c => c == 0, pulseOk := fun _ => true, bit := fun _ _ => false }
        true 1 [{}, {}]).dataPulses = 0) ∧
    (hx_read
        { lineLow := fun _ c => c == 0, pulseOk := fun _ => true, bit := fun _ _ => false }
        false 1 [{}, {}]).ok = true :=
  ⟨⟨((C6_readiness_policy
      { lineLow := fun _ c => c == 0, pulseOk := fun _ => true, bit := fun _ _ => false }
      1 [{}, {}]).1 rfl).1,
    ((C6_readiness_policy
      { lineLow := fun _ c => c == 0, pulseOk := fun _ => true, bit := fun _ _ => false }
      1 [{}, {}]).1 rfl).2.1⟩,
   ((C6_readiness_policy
      { lineLow := fun _ c => c == 0, pulseOk := fun _ => true, bit := fun _ _ => false }
      1 [{}, {}]).2 (fun _ => rfl)).1⟩

/-! ## Calibration: `HX711.zero` (hx711.py lines 345-366) and
`ADC.zero_from_last_measurement` / `ADC.zero` (452-465) -/

/-- The merge step of `HX711.zero`'s retry loop:
`r_new if r_new is not None else r_old`, pairwise — a fresh non-`None`
reading overwrites the stored one. -/
def merge_readings (readings_new readings_old : List (Option ℚ)) : List (Option ℚ) :=
  (readings_new.zip readings_old).map fun p => if p.1.isSome then p.1 else p.2

/-- Written from the spec's words, for comparison with the source's
`merge_readings`: "first non-None wins per channel", i.e. a stored
non-`None` reading is kept and only missing entries are filled from the
new batch. -/
def merge_readings_first_wins (readings_new readings_old : List (Option ℚ)) :
    List (Option ℚ) :=
  (readings_new.zip readings_old).map fun p => if p.2.isSome then p.2 else p.1

/-- The retry loop of `HX711.zero`: `attempts i` is the result list of
the `i`-th `read_raw` call; each new batch is merged into the
accumulator (`none` = Python's initial `readings = None`), stopping
early once no entry is `None`. Returns the final `readings`. -/
def zero_merge_loop (attempts : ℕ → List (Option ℚ)) :
    ℕ → ℕ → Option (List (Option ℚ)) → Option (List (Option ℚ))
  | 0, _, acc => acc
  | fuel + 1, i, acc =>
    let acc' := match acc with
      | some readings_old => merge_readings (attempts i) readings_old
      | none => attempts i
    if acc'.all (·.isSome) then some acc' else zero_merge_loop attempts fuel (i + 1) (some acc')

/-- The readings `HX711.zero` holds after its retry loop. -/
def hx_zero_readings (attempts : ℕ → List (Option ℚ)) (retry_limit : ℕ) :
    Option (List (Option ℚ)) :=
  zero_merge_loop attempts retry_limit 0 none

/-- The post-loop check of `HX711.zero`: `if None in readings: raise` —
any channel still missing after all retries fails the whole zero
operation (a zero-iteration loop leaves `readings = None` and also
fails, with a `TypeError`). -/
def hx_zero_result (attempts : ℕ → List (Option ℚ)) (retry_limit : ℕ) :
    Option (List (Option ℚ)) :=
  match hx_zero_readings attempts retry_limit with
  | some readings => if readings.all (·.isSome) then some readings else none
  | none => none

/-- `ADC.zero_from_last_measurement`: sets the offset to `measurement`
itself; a `measurement` of `None` — or exactly `0`, by Python
truthiness of `if self.measurement:` — raises `ValueError` (`none`). -/
def zero_from_last_measurement (measurement : Option ℚ) : Option ℚ :=
  match measurement with
  | some m => if m = 0 then none else some m
  | none => none

/-- C9 (counterexample). The claim says the first non-`None` value per
channel wins across attempts. With attempt 0 returning `[5, None]` and
attempt 1 returning `[7, 3]`, the code's merged readings are `[7, 3]` —
the *latest* non-`None` wins — while the spec's first-wins rule yields
`[5, 3]`. -/
theorem C9_counterexample :
    hx_zero_readings (fun i => if i = 0 then [some 5, none] else [some 7, some 3]) 2
      = some [some 7, some 3] ∧
    merge_readings_first_wins [some 7, some 3] [some 5, none] = [some 5, some 3] ∧
    (some [some (7 : ℚ), some 3] : Option (List (Option ℚ))) ≠ some [some 5, some 3] := by
  refine ⟨rfl, rfl, ?_⟩
  norm_num

/-- C9 (amended). `HX711.zero` merges retries so that the *latest*
non-`None` reading per channel wins (a `None` in a newer batch keeps
the stored value); it fails hard when any channel is still `None` after
all retries, succeeds when none is, and on success each ready channel's
`zero_offset` becomes that channel's `measurement` itself (not
`measurement_from_zero`), with Python truthiness rejecting a
measurement of exactly 0. -/
theorem C9_amended :
    (∀ (rn ro : List (Option ℚ)) i, i < rn.length → i < ro.length →
      (merge_readings rn ro).getD i none =
        if (rn.getD i none).isSome then rn.getD i none else ro.getD i none) ∧
    (∀ attempts retry_limit readings,
      hx_zero_readings attempts retry_limit = some readings →
      (∃ x ∈ readings, x = none) → hx_zero_result attempts retry_limit = none) ∧
    (∀ attempts retry_limit readings,
      hx_zero_readings attempts retry_limit = some readings →
      readings.all (·.isSome) = true →
      hx_zero_result attempts retry_limit = some readings) ∧
    (∀ m : ℚ, m ≠ 0 → zero_from_last_measurement (some m) = some m) ∧
    zero_from_last_measurement none = none := by
  refine ⟨?_, ?_, ?_, ?_, rfl⟩
  · intro rn
    induction rn with
    | nil => intro ro i h1 _; simp at h1
    | cons a as ih =>
      intro ro i h1 h2
      cases ro with
      | nil => simp at h2
      | cons b bs =>
        cases i with
        | zero => simp [merge_readings]
        | succ j =>
          have := ih bs j (by simpa using h1) (by simpa using h2)
          simpa [merge_readings] using this
  · intro attempts retry_limit readings hr hex
    have hfalse : readings.all (·.isSome) = false := by
      rw [List.all_eq_false]
      obtain ⟨x, hx, rfl⟩ := hex
      refine ⟨none, hx, ?_⟩
      simp
    simp [hx_zero_result, hr, hfalse]
  · intro attempts retry_limit readings hr hall
    simp [hx_zero_result, hr, hall]
  · intro m hm
    simp [zero_from_last_measurement, hm]

/-- Witness for C9's amended theorem at concrete inputs: the merge keeps
the newer reading at index 0, the loop of the counterexample scenario
succeeds with `[7, 3]`, and zeroing from measurement 5 sets offset 5. -/
theorem C9_amended_witness :
    (merge_readings [some 7, some 3] [some 5, none]).getD 0 none = some 7 ∧
    hx_zero_result (fun i => if i = 0 then [some 5, none] else [some 7, some 3]) 2
      = some [some 7, some 3] ∧
    zero_from_last_measurement (some 5) = some 5 := by
  refine ⟨?_, ?_, C9_amended.2.2.2.1 5 (by norm_num)⟩
  · have := C9_amended.1 [some 7, some 3] [some 5, none] 0 (by simp) (by simp)
    simpa using this
  · exact C9_amended.2.2.1 _ 2 [some 7, some 3] rfl rfl

/-! ## Single-ADC mode: `HX711.zero` applied to the scalar that
`read_raw` returns when `dout_pins` was a single int
(hx711.py lines 71, 284-288, 345-360) -/

/-- A Python runtime value as `zero`'s readings handling sees it. -/
inductive PyV
  | pynone
  | num (q : ℚ)
  | plist (l : List PyV)

/-- `is None` check (identity comparison). -/
def PyV.isNone : PyV → Bool
  | .pynone => true
  | _ => false

/-- Python error outcomes of `zero`. -/
inductive PyErr
  | typeError
  | zeroFailure
  deriving Repr, DecidableEq

/-- `None in readings`: membership raises `TypeError` unless `readings`
is a list — numbers and `None` are not iterable. -/
def py_contains_none : PyV → Except PyErr Bool
  | .plist l => .ok (l.any PyV.isNone)
  | _ => .error .typeError

/-- The zip-merge comprehension of `zero`: raises `TypeError` unless
both operands are lists. -/
def py_zip_merge (readings_new readings_old : PyV) : Except PyErr PyV :=
  match readings_new, readings_old with
  | .plist a, .plist b =>
    .ok (.plist ((a.zip b).map fun p => if p.1.isNone then p.2 else p.1))
  | _, _ => .error .typeError

/-- `HX711.read_raw` in single-ADC mode returns `adc_measurements[0]`:
a bare number or `None`, never a list. -/
def read_raw_single (measurement : Option ℚ) : PyV :=
  match measurement with
  | some q => .num q
  | none => .pynone

/-- The retry loop of `HX711.zero`, executed on Python values: merge the
new batch in (the first iteration replaces the initial `None`), test
`None in readings`, break when clean; after the loop the same membership
test decides between hard failure and proceeding to the per-ADC
zeroing (modelled as success). -/
def zero_loop_py (attempts : ℕ → PyV) : ℕ → ℕ → PyV → Except PyErr Unit
  | 0, _, readings =>
    match py_contains_none readings with
    | .error e => .error e
    | .ok b => if b then .error .zeroFailure else .ok ()
  | fuel + 1, i, readings =>
    let step : Except PyErr PyV :=
      if readings.isNone then .ok (attempts i) else py_zip_merge (attempts i) readings
    match step with
    | .error e => .error e
    | .ok readings' =>
      match py_contains_none readings' with
      | .error e => .error e
      | .ok b =>
        if b then zero_loop_py attempts fuel (i + 1) readings'
        else .ok ()

/-- `HX711.zero` in single-ADC mode. -/
def hx_zero_single (attempts : ℕ → Option ℚ) (retry_limit : ℕ) : Except PyErr Unit :=
  zero_loop_py (fun i => read_raw_single (attempts i)) retry_limit 0 .pynone

/-- C10. With a single integer data pin, `read_raw` returns a bare
scalar, so every call to `zero` raises `TypeError`: with a zero retry
limit the final `None in readings` runs on `None`, and otherwise the
first iteration's `None not in readings` runs on the scalar the first
`read_raw` returned — regardless of whether acquisition succeeded. -/
theorem C10_single_adc_zero_raises (attempts : ℕ → Option ℚ) (retry_limit : ℕ) :
    hx_zero_single attempts retry_limit = .error .typeError := by
  cases retry_limit with
  | zero => rfl
  | succ f =>
    unfold hx_zero_single zero_loop_py
    cases h : attempts 0 <;> simp [read_raw_single, py_contains_none, PyV.isNone, h]

end HXSpec
